import Mathlib

/-!
Shallow embedding of `src/app/sd_mox.py` (OS2mo SD-Mox HTTP trigger).

Strings are modelled with Lean `String` over ASCII semantics for the Python
string predicates used by the source (`str.isalnum`, `str.upper`,
`str.rsplit(" ", 2)`, `str.strip`, `str.startswith`).  External collaborators
(the SD registry reader, the DAR address lookup, the AMQP channel) are
modelled as oracle functions in an `Env` record; published wire documents are
collected in an explicit log so that "no network write" is a statement about
that log.  Python exceptions are modelled by an `Err` inductive with one
constructor per raise site.
-/

namespace SdMox

/-- Python exception outcomes, one constructor per raise site of
`sd_mox.py` (`SDMoxError` sites carry their distinguishing data; bare
Python errors such as unpacking `ValueError`, `TypeError` and `KeyError`
are kept distinct from `SDMoxError`). -/
inductive Err where
  /-- `SDMoxError(", ".join(code_errors))` from unit-code validation. -/
  | codeErrors (msgs : List String)
  /-- `SDMoxError("Forældrenheden findes ikke")`. -/
  | parentNotFound
  /-- `SDMoxError("Enhedstypen passer ikke til forældreenheden")`. -/
  | structuralViolation
  /-- `SDMoxError("Enhedstype er ikke et kendt NY-niveau")`. -/
  | unknownUnitLevel
  /-- `SDMoxError("Forældreenhedens enhedstype er ikke et kendt NY-niveau")`. -/
  | unknownParentLevel
  /-- `SDMoxError("Opret postaddresse før pnummer")`. -/
  | orderingViolation
  /-- `SDMoxError("Afdeling ikke unik. ...")`. -/
  | nonUniqueDepartment
  /-- `SDMoxError("Afdeling ikke fundet: %s")`, carrying the unit uuid. -/
  | unitNotFound (uuid : Option String)
  /-- `SDMoxError("Følgende felter kunne ikke opdateres i SD: %s")`. -/
  | fieldErrors (errs : List String)
  /-- `SDMoxError("Fejlende opslag i DAR for " + addrid)`. -/
  | darLookupFailed (addrid : String)
  /-- `SDMoxError("Addresse ikke fundet i DAR: ...")`. -/
  | darNotFound (addrid : String)
  /-- An uncaught Python `ValueError` (tuple unpacking, `list.index`). -/
  | valueError
  /-- An uncaught Python `TypeError` (`str.startswith(None)`). -/
  | typeError
  /-- An uncaught Python `KeyError` (`dict[...]` on a missing key). -/
  | keyError
deriving DecidableEq, Repr

/-- Whether an `Err` models a raised `SDMoxError` (as opposed to a bare
Python `ValueError`/`TypeError`/`KeyError`). -/
def Err.isSDMoxError : Err → Bool
  | .valueError => false
  | .typeError => false
  | .keyError => false
  | _ => true

/-- The SD postal address triple produced by `_mo_to_sd_address`
(keys `silkdata:AdresseNavn`, `silkdata:PostKodeIdentifikator`,
`silkdata:ByNavn`). -/
structure SDAddress where
  adresseNavn : String
  postKode : String
  byNavn : String
deriving DecidableEq, Repr

/-- `department.get("PostalAddress", {})` with its three optional keys;
an all-`none` value models a missing `PostalAddress` key. -/
structure PostalAddress where
  standardAddressIdentifier : Option String
  postalCode : Option String
  districtName : Option String
deriving DecidableEq, Repr

/-- A department record as read back from the SD registry
(`_read_department` result); every key access in the source uses
`.get`, except `["DepartmentLevelIdentifier"]` in `_create_unit` /
`_move_unit`, hence optional fields.  `phone` models
`ContactInformation.TelephoneNumberIdentifier[0]`. -/
structure Department where
  activationDate : Option String
  departmentName : Option String
  departmentIdentifier : Option String
  departmentUUIDIdentifier : Option String
  departmentLevelIdentifier : Option String
  phone : Option String
  productionUnitIdentifier : Option String
  postalAddress : PostalAddress
deriving DecidableEq, Repr

/-- `getDepartmentParent` result (`DepartmentParent` key). -/
structure ParentInfo where
  departmentUUIDIdentifier : Option String
deriving DecidableEq, Repr

/-- Raw outcome of `getDepartment`: nothing, one department dict, or a
list (non-unique). -/
inductive DeptResult where
  | missing
  | one (d : Department)
  | many
deriving DecidableEq, Repr

/-- An MO address detail dict: `address_type.scope`,
`address_type.user_key` and `value`. -/
structure AddressDetail where
  scope : String
  userKey : String
  value : String
deriving DecidableEq, Repr

/-- An MO organisational-unit dict (the fields of it that `sd_mox.py`
reads: `name`, `user_key`, `org_unit_level.uuid`, `uuid`). -/
structure MOUnit where
  name : String
  userKey : String
  orgUnitLevelUuid : String
  uuid : String
deriving DecidableEq, Repr

/-- The payload dict built by `_payload_create`. -/
structure CreatePayload where
  unitName : String
  parentCode : String
  parentUuid : String
  parentLevel : String
  unitCode : String
  unitLevel : String
  unitUuid : String
deriving DecidableEq, Repr

/-- The payload dict built by `_payload_edit` (with
`integration_values` flattened into its two keys). -/
structure EditPayload where
  unitName : String
  unitCode : String
  unitUuid : String
  phone : Option String
  pnummer : Option String
  adresse : Option SDAddress
  formaalskode : Option String
  skolekode : Option String
deriving DecidableEq, Repr

/-- The keyword arguments of `_check_department` (all defaulting to
`None` in the source). -/
structure CheckPayload where
  unitName : Option String
  unitCode : Option String
  unitUuid : Option String
  unitLevel : Option String
  phone : Option String
  pnummer : Option String
  adresse : Option SDAddress
  parent : Option String
deriving DecidableEq, Repr

/-- A wire document published over AMQP by `self._call(xml)`; the XML
rendering itself is not claimed, so the document is modelled as the
payload handed to the corresponding `_create_xml_*` renderer. -/
inductive WireDoc where
  | createDoc (unitName unitUuid unitCode unitLevel parentUnitUuid : String)
  | flytDoc (unitName unitUuid unitCode unitLevel parentUnitUuid : String)
  | retDoc (p : EditPayload)
deriving DecidableEq, Repr

/-- The external world: SD registry reads (one oracle for validation
lookups, one per polling attempt since the registry converges
asynchronously) and the DAR address lookup, as `(addrid, endpoint) ↦`
outcome where `.error` is any requests/JSON/status exception. -/
structure Env where
  readDept : Option String → Option String → Option String → DeptResult
  pollDept : Nat → DeptResult
  pollParent : Nat → Option ParentInfo
  darLookup : String → String → Except Unit (List String)

/-- The settings consumed by the modelled code paths: the ordered
`sd_levels` mapping (level key, class uuid) and `amqp_check_retries`. -/
structure Settings where
  sd_levels : List (String × String)
  amqp_check_retries : Nat
deriving Repr

/-! ### Python string helpers (ASCII semantics) -/

/-- Python `str.isalnum` (false on the empty string), over ASCII. -/
def pyIsAlnum (s : String) : Bool :=
  !s.isEmpty && s.data.all Char.isAlphanum

/-- Python `str.upper`, over ASCII. -/
def pyUpper (s : String) : String :=
  String.mk (s.data.map Char.toUpper)

/-- Split a character list at its LAST space character: `some (l, r)`
with `input = l ++ ' ' :: r`, or `none` when there is no space. -/
def breakLastSpace : List Char → Option (List Char × List Char)
  | [] => none
  | c :: cs =>
    match breakLastSpace cs with
    | some (l, r) => some (c :: l, r)
    | none => if c = ' ' then some ([], cs) else none

/-- Python `s.rsplit(" ", maxsplit=2)`: at most two splits, taken from
the right, on the space character. -/
def pyRsplit2 (s : String) : List String :=
  match breakLastSpace s.data with
  | none => [s]
  | some (l1, r1) =>
    match breakLastSpace l1 with
    | none => [String.mk l1, String.mk r1]
    | some (l2, r2) => [String.mk l2, String.mk r2, String.mk r1]

/-- `street[:-1]` applied when `street.endswith(",")`. -/
def stripTrailingComma (l : List Char) : List Char :=
  if l.getLast? = some ',' then l.dropLast else l

/-- Python `str.strip()`: drop whitespace from both ends. -/
def pyStrip (s : String) : String :=
  String.mk (((s.data.dropWhile Char.isWhitespace).reverse.dropWhile Char.isWhitespace).reverse)

/-! ### `_validate_unit_code`, `_mo_to_sd_address`, `_get_dar_address` -/

/-- The pure syntax part of `_validate_unit_code` (lines 517-528):
presence (only for `None`), length, character set and upper-case checks,
collected in source order. -/
def validate_unit_code_format (unit_code : Option String) : List String :=
  match unit_code with
  | none => ["Enhedsnummer ikke angivet"]
  | some code =>
    (if code.length < 2 then ["Enhedsnummer for kort"]
     else if code.length > 4 then ["Enhedsnummer for langt"] else [])
    ++ (if !pyIsAlnum code then ["Ugyldigt tegn i enhedsnummer"] else [])
    ++ (if pyUpper code ≠ code then ["Enhedsnummer skal være store bogstaver"] else [])

/-- `_read_department`: a list result raises the non-unique
`SDMoxError`. -/
def readDepartmentE (env : Env) (code uuid level : Option String) :
    Except Err (Option Department) :=
  match env.readDept code uuid level with
  | .many => .error .nonUniqueDepartment
  | .missing => .ok none
  | .one d => .ok (some d)

/-- `_validate_unit_code`: syntax checks, then (only when they pass and
`can_exist` is false) the registry duplicate lookup. -/
def validate_unit_code (env : Env) (unit_code : Option String) (can_exist : Bool) :
    Except Err (List String) :=
  if validate_unit_code_format unit_code = [] ∧ can_exist = false then
    match readDepartmentE env unit_code none none with
    | .error e => .error e
    | .ok (some _) => .ok ["Enhedsnummer er i brug"]
    | .ok none => .ok []
  else .ok (validate_unit_code_format unit_code)

/-- `_mo_to_sd_address`: `None` passes through; otherwise
`rsplit(" ", 2)` must yield exactly three parts (street, zip, city) or
the tuple unpacking raises a bare `ValueError`; a trailing comma on the
street part is dropped before `strip`. -/
def mo_to_sd_address (address : Option String) : Except Err (Option SDAddress) :=
  match address with
  | none => .ok none
  | some a =>
    match pyRsplit2 a with
    | [street, zipc, city] =>
        .ok (some ⟨pyStrip (String.mk (stripTrailingComma street.data)), pyStrip zipc, pyStrip city⟩)
    | _ => .error .valueError

/-- The fixed DAR fallback endpoints, in source order. -/
def dar_address_endpoints : List String :=
  ["adresser", "adgangsadresser", "historik/adresser", "historik/adgangsadresser"]

/-- The for/else loop of `_get_dar_address`, instrumented with the list
of endpoints actually queried.  An endpoint whose request raises aborts
immediately; an endpoint returning a non-empty list breaks the loop and
the label is the LAST entry (`addrobjs.pop()["betegnelse"]`); loop
exhaustion raises the not-found error. -/
def get_dar_address_go (lookup : String → String → Except Unit (List String))
    (addrid : String) : List String → List String × Except Err String
  | [] => ([], .error (.darNotFound addrid))
  | ep :: rest =>
    match lookup addrid ep with
    | .error _ => ([ep], .error (.darLookupFailed addrid))
    | .ok [] =>
        let r := get_dar_address_go lookup addrid rest
        (ep :: r.1, r.2)
    | .ok (e :: es) => ([ep], .ok (es.getLastD e))

/-- `_get_dar_address` over the four fixed endpoints. -/
def get_dar_address (lookup : String → String → Except Unit (List String))
    (addrid : String) : Except Err String :=
  (get_dar_address_go lookup addrid dar_address_endpoints).2

/-! ### `_grouped_addresses` and the payload builders -/

/-- `d.setdefault(key, []).append(v)` on an insertion-ordered mapping of
lists, modelled as an association list. -/
def assocAppend (m : List (String × List String)) (k : String) (v : String) :
    List (String × List String) :=
  match m with
  | [] => [(k, [v])]
  | (k', vs) :: rest =>
      if k' = k then (k', vs ++ [v]) :: rest else (k', vs) :: assocAppend rest k v

/-- Python `key in mapping`. -/
def assocHas (m : List (String × List String)) (k : String) : Bool :=
  m.any (fun p => p.1 = k)

/-- Python `mapping.get(key, [None])[0]`. -/
def assocFirst (m : List (String × List String)) (k : String) : Option String :=
  match m.find? (fun p => p.1 = k) with
  | some (_, v :: _) => some v
  | some (_, []) => none
  | none => none

/-- The loop body of `_grouped_addresses`, carrying the `scopedM` and
`keyed` accumulators (`scoped` and `keyed` in the source): a value whose
scope is `DAR` is resolved through
`_get_dar_address` (whose failure propagates), every other scope keeps
the raw value; `keyed` always records the raw value. -/
def grouped_addresses_go (lookup : String → String → Except Unit (List String))
    (scopedM keyed : List (String × List String)) :
    List AddressDetail → Except Err (List (String × List String) × List (String × List String))
  | [] => .ok (scopedM, keyed)
  | d :: rest =>
    match (if d.scope = "DAR" then get_dar_address lookup d.value else .ok d.value) with
    | .error e => .error e
    | .ok v =>
        grouped_addresses_go lookup (assocAppend scopedM d.scope v)
          (assocAppend keyed d.userKey d.value) rest

/-- `_grouped_addresses`. -/
def grouped_addresses (lookup : String → String → Except Unit (List String))
    (details : List AddressDetail) :
    Except Err (List (String × List String) × List (String × List String)) :=
  grouped_addresses_go lookup [] [] details

/-- `_payload_edit`: group the addresses, enforce the
pnumber-needs-postal-address ordering invariant, then extract the
priority-first values (the postal value going through
`_mo_to_sd_address`). -/
def payload_edit (lookup : String → String → Except Unit (List String))
    (unitUuid : String) (unit : MOUnit) (addresses : List AddressDetail) :
    Except Err EditPayload :=
  match grouped_addresses lookup addresses with
  | .error e => .error e
  | .ok (scopedM, keyed) =>
    if assocHas scopedM "PNUMBER" && !assocHas scopedM "DAR" then
      .error .orderingViolation
    else
      match mo_to_sd_address (assocFirst scopedM "DAR") with
      | .error e => .error e
      | .ok adr =>
          .ok ⟨unit.name, unit.userKey, unitUuid,
               assocFirst scopedM "PHONE", assocFirst scopedM "PNUMBER", adr,
               assocFirst keyed "Formålskode", assocFirst keyed "Skolekode"⟩

/-- `self.level_by_uuid` = `{v: k for k, v in self.sd_levels.items()}`
(on duplicate uuids the last level key wins), queried with `.get`. -/
def levelByUuid (levels : List (String × String)) (uuid : String) : Option String :=
  (levels.reverse.find? (fun p => p.2 = uuid)).map (fun p => p.1)

/-- `_payload_create`: both levels must resolve to a truthy level key
(`if not unit_level` is a Python falsiness test, so the empty string
also fails). -/
def payload_create (levels : List (String × String)) (unitUuid : String)
    (unit parent : MOUnit) : Except Err CreatePayload :=
  match levelByUuid levels unit.orgUnitLevelUuid with
  | none => .error .unknownUnitLevel
  | some ul =>
    if ul = "" then .error .unknownUnitLevel
    else
      match levelByUuid levels parent.orgUnitLevelUuid with
      | none => .error .unknownParentLevel
      | some pl =>
        if pl = "" then .error .unknownParentLevel
        else .ok ⟨unit.name, parent.userKey, parent.uuid, pl, unit.userKey, ul, unitUuid⟩

/-! ### `_check_department` and the `_check_unit` polling loop -/

/-- The `compare` closure of `_check_department` with the default
`operator.ne` comparator: an error is recorded only when the expected
value is not `None` and the actual value differs. -/
def cmpNe (actual expected : Option String) (err : String) : List String :=
  match expected with
  | none => []
  | some e => if actual ≠ some e then [err] else []

/-- The `compare` call for the name field, whose comparator is
`lambda actual, expected: not expected.startswith(actual)`; when the
expected name is present but the observed name is `None`,
`startswith(None)` raises a `TypeError`. -/
def nameCmp (actual expected : Option String) : Except Err (List String) :=
  match expected with
  | none => .ok []
  | some e =>
    match actual with
    | none => .error .typeError
    | some a => .ok (if ¬ e.startsWith a then ["Name"] else [])

/-- `_check_department` on the outcome of one registry read: `None`
yields `(None, ["Unit"])`, a list raises non-unique, and a found
department is compared field by field in source order (activation date
only for operations `ret`/`import`, parent only when an expected parent
uuid was supplied, the postal triple only when an expected address was
supplied). -/
def check_department (deptRes : DeptResult) (parentRes : Option ParentInfo)
    (fromDate : String) (operation : String) (p : CheckPayload) :
    Except Err (Option Department × List String) :=
  match deptRes with
  | .many => .error .nonUniqueDepartment
  | .missing => .ok (none, ["Unit"])
  | .one d =>
    let e1 := if operation = "ret" ∨ operation = "import" then
        cmpNe d.activationDate (some fromDate) "Activation Date" else []
    match nameCmp d.departmentName p.unitName with
    | .error e => .error e
    | .ok e2 =>
      let e3 := cmpNe d.departmentIdentifier p.unitCode "Unit code"
      let e4 := cmpNe d.departmentUUIDIdentifier p.unitUuid "UUID"
      let e5 := cmpNe d.departmentLevelIdentifier p.unitLevel "Level"
      let e6 := cmpNe d.phone p.phone "Phone"
      let e7 := cmpNe d.productionUnitIdentifier p.pnummer "Pnummer"
      let e8 := match p.adresse with
        | none => []
        | some a =>
            cmpNe d.postalAddress.standardAddressIdentifier (some a.adresseNavn) "Address"
            ++ cmpNe d.postalAddress.postalCode (some a.postKode) "Zip code"
            ++ cmpNe d.postalAddress.districtName (some a.byNavn) "Postal Area"
      let e9 := match p.parent with
        | none => []
        | some puuid =>
          match parentRes with
          | none => ["Parent"]
          | some pa => cmpNe pa.departmentUUIDIdentifier (some puuid) "Parent"
      .ok (some d, e1 ++ e2 ++ e3 ++ e4 ++ e5 ++ e6 ++ e7 ++ e8 ++ e9)

/-- The `for i in range(retries)` loop of `_check_unit`: `acc` carries
the `(unit, errors)` pair of the most recent attempt (initially
`(None, None)`); the loop breaks as soon as an attempt finds the unit,
and a raising attempt propagates. -/
def check_unit_aux (f : Nat → Except Err (Option Department × List String)) :
    Nat → Nat → Option Department × Option (List String) →
    Except Err (Option Department × Option (List String))
  | _, 0, acc => .ok acc
  | i, fuel + 1, _ =>
    match f i with
    | .error e => .error e
    | .ok (u, errs) =>
      if u.isSome then .ok (u, some errs)
      else check_unit_aux f (i + 1) fuel (u, some errs)

/-- `_check_unit` after the loop: no unit raises not-found, a truthy
error list raises the field-update error, otherwise the unit is
returned (an errors value of `None` is falsy in Python and also returns
the unit). -/
def check_unit_core (f : Nat → Except Err (Option Department × List String))
    (retries : Nat) (uuidMsg : Option String) : Except Err Department :=
  match check_unit_aux f 0 retries (none, none) with
  | .error e => .error e
  | .ok (none, _) => .error (.unitNotFound uuidMsg)
  | .ok (some u, none) => .ok u
  | .ok (some u, some errs) =>
      if errs = [] then .ok u else .error (.fieldErrors errs)

/-- `_check_unit` where attempt `i` reads the registry through the
environment's polling oracles. -/
def check_unit_flow (env : Env) (st : Settings) (fromDate : String)
    (operation : String) (p : CheckPayload) : Except Err Department :=
  check_unit_core
    (fun i => check_department (env.pollDept i) (env.pollParent i) fromDate operation p)
    st.amqp_check_retries p.unitUuid

/-- The check payload `_check_unit(operation="import", **payload)`
receives from a create payload. -/
def createCheckPayload (pc : CreatePayload) : CheckPayload :=
  ⟨some pc.unitName, some pc.unitCode, some pc.unitUuid, some pc.unitLevel,
   none, none, none, some pc.parentUuid⟩

/-- The check payload for `move_unit`, after `payload["unit_name"] = None`. -/
def moveCheckPayload (pc : CreatePayload) : CheckPayload :=
  ⟨none, some pc.unitCode, some pc.unitUuid, some pc.unitLevel,
   none, none, none, some pc.parentUuid⟩

/-- The check payload `_check_unit(operation="ret", **payload)` receives
from an edit payload (`integration_values` is ignored by the check). -/
def editCheckPayload (pe : EditPayload) : CheckPayload :=
  ⟨some pe.unitName, some pe.unitCode, some pe.unitUuid, none,
   pe.phone, pe.pnummer, pe.adresse, none⟩

/-! ### The operation flows

Each flow returns the list of wire documents actually published (empty
under `dry_run`) together with the operation's outcome. -/

/-- `_create_unit`: code validation (with duplicate check), parent
existence, level-rank check, then render and (unless a test run)
publish the create document. -/
def create_unit_low (env : Env) (st : Settings) (pc : CreatePayload)
    (testRun : Bool) : List WireDoc × Except Err String :=
  match validate_unit_code env (some pc.unitCode) false with
  | .error e => ([], .error e)
  | .ok errs =>
    if errs ≠ [] then ([], .error (.codeErrors errs))
    else
      match readDepartmentE env (some pc.parentCode) none (some pc.parentLevel) with
      | .error e => ([], .error e)
      | .ok none => ([], .error .parentNotFound)
      | .ok (some pd) =>
        match pd.departmentLevelIdentifier with
        | none => ([], .error .keyError)
        | some pdl =>
          match (st.sd_levels.map (fun p => p.1)).findIdx? (· = pc.unitLevel) with
          | none => ([], .error .valueError)
          | some ui =>
            match (st.sd_levels.map (fun p => p.1)).findIdx? (· = pdl) with
            | none => ([], .error .valueError)
            | some pj =>
              if ui > pj then
                ((if testRun then [] else
                    [WireDoc.createDoc pc.unitName pc.unitUuid pc.unitCode
                      pc.unitLevel pc.parentUuid]),
                 .ok pc.unitUuid)
              else ([], .error .structuralViolation)

/-- `_move_unit`: like `_create_unit` but the code may already exist
and the move document is rendered. -/
def move_unit_low (env : Env) (st : Settings) (pc : CreatePayload)
    (testRun : Bool) : List WireDoc × Except Err String :=
  match validate_unit_code env (some pc.unitCode) true with
  | .error e => ([], .error e)
  | .ok errs =>
    if errs ≠ [] then ([], .error (.codeErrors errs))
    else
      match readDepartmentE env (some pc.parentCode) none (some pc.parentLevel) with
      | .error e => ([], .error e)
      | .ok none => ([], .error .parentNotFound)
      | .ok (some pd) =>
        match pd.departmentLevelIdentifier with
        | none => ([], .error .keyError)
        | some pdl =>
          match (st.sd_levels.map (fun p => p.1)).findIdx? (· = pc.unitLevel) with
          | none => ([], .error .valueError)
          | some ui =>
            match (st.sd_levels.map (fun p => p.1)).findIdx? (· = pdl) with
            | none => ([], .error .valueError)
            | some pj =>
              if ui > pj then
                ((if testRun then [] else
                    [WireDoc.flytDoc pc.unitName pc.unitUuid pc.unitCode
                      pc.unitLevel pc.parentUuid]),
                 .ok pc.unitUuid)
              else ([], .error .structuralViolation)

/-- `_update_ou`: build the edit payload, publish the edit document via
`_edit_unit` (unless a dry run), then poll with operation `ret`. -/
def update_ou_flow (env : Env) (st : Settings) (unitUuid : String)
    (unit : MOUnit) (addresses : List AddressDetail) (dryRun : Bool)
    (fromDate : String) : List WireDoc × Except Err Department :=
  match payload_edit env.darLookup unitUuid unit addresses with
  | .error e => ([], .error e)
  | .ok pe =>
      ((if dryRun then [] else [WireDoc.retDoc pe]),
       check_unit_flow env st fromDate "ret" (editCheckPayload pe))

/-- `rename_unit`: the unit data with its new name, code validation
with `can_exist=True`, then `_update_ou`. -/
def rename_unit_flow (env : Env) (st : Settings) (unitUuid : String)
    (unitData : MOUnit) (newName : String) (addresses : List AddressDetail)
    (dryRun : Bool) (fromDate : String) : List WireDoc × Except Err Department :=
  let u2 : MOUnit := ⟨newName, unitData.userKey, unitData.orgUnitLevelUuid, unitData.uuid⟩
  match validate_unit_code env (some u2.userKey) true with
  | .error e => ([], .error e)
  | .ok errs =>
    if errs ≠ [] then ([], .error (.codeErrors errs))
    else update_ou_flow env st unitUuid u2 addresses dryRun fromDate

/-- `move_unit`: code validation, payload build, `_move_unit`, then the
convergence check with the expected name cleared. -/
def move_unit_flow (env : Env) (st : Settings) (unitUuid : String)
    (unitData : MOUnit) (newParent : MOUnit) (dryRun : Bool) (fromDate : String) :
    List WireDoc × Except Err Department :=
  match validate_unit_code env (some unitData.userKey) true with
  | .error e => ([], .error e)
  | .ok errs =>
    if errs ≠ [] then ([], .error (.codeErrors errs))
    else
      match payload_create st.sd_levels unitUuid unitData newParent with
      | .error e => ([], .error e)
      | .ok pc =>
        let r1 := move_unit_low env st pc dryRun
        match r1.2 with
        | .error e => (r1.1, .error e)
        | .ok _ => (r1.1, check_unit_flow env st fromDate "flyt" (moveCheckPayload pc))

/-- `create_unit`: payload build, `_create_unit`, then (when the unit
data carries address details) `_update_ou` on them, and finally the
convergence check with operation `import`. -/
def create_unit_flow (env : Env) (st : Settings) (unitUuid : String)
    (unit : MOUnit) (details : List AddressDetail) (parent : MOUnit)
    (dryRun : Bool) (fromDate : String) : List WireDoc × Except Err Department :=
  match payload_create st.sd_levels unitUuid unit parent with
  | .error e => ([], .error e)
  | .ok pc =>
    let r1 := create_unit_low env st pc dryRun
    match r1.2 with
    | .error e => (r1.1, .error e)
    | .ok _ =>
      if details = [] then
        (r1.1, check_unit_flow env st fromDate "import" (createCheckPayload pc))
      else
        let r2 := update_ou_flow env st unitUuid unit details dryRun fromDate
        match r2.2 with
        | .error e => (r1.1 ++ r2.1, .error e)
        | .ok _ => (r1.1 ++ r2.1, check_unit_flow env st fromDate "import" (createCheckPayload pc))

/-- `create_address` (and `edit_address`, which delegates to it): the
new address record is prepended to the previously recorded ones, then
`_update_ou`. -/
def create_address_flow (env : Env) (st : Settings) (unitUuid : String)
    (unitData : MOUnit) (addressData : AddressDetail)
    (prevAddresses : List AddressDetail) (dryRun : Bool) (fromDate : String) :
    List WireDoc × Except Err Department :=
  update_ou_flow env st unitUuid unitData (addressData :: prevAddresses) dryRun fromDate

/-- The validation-failure kinds named by the specification: bad unit
code, structural level mismatch, ordering violation, unknown level. -/
def isValidationErr : Err → Bool
  | .codeErrors _ => true
  | .structuralViolation => true
  | .orderingViolation => true
  | .unknownUnitLevel => true
  | .unknownParentLevel => true
  | _ => false

/-- The validation-failure kinds that `create_unit` detects before its
create document is published (everything above except the ordering
violation, which `_payload_edit` raises only after `_create_unit`). -/
def isCreatePreValidationErr : Err → Bool
  | .codeErrors _ => true
  | .structuralViolation => true
  | .unknownUnitLevel => true
  | .unknownParentLevel => true
  | _ => false

/-- The `_check_department` payload with every expected value `None`. -/
def allNonePayload : CheckPayload := ⟨none, none, none, none, none, none, none, none⟩

/-- A found department whose activation date does not match the
configured effective date. -/
def deptStale : Department :=
  ⟨some "1900-01-01", some "Name", some "AB", some "u-uuid", some "NY1",
   none, none, ⟨none, none, none⟩⟩

/-! ### Concrete instances for witnesses and counterexamples -/

/-- A registry parent department at level `TOP`. -/
def pdEx : Department :=
  ⟨some "2020-01-01", some "Parent", some "PA", some "p-uuid", some "TOP",
   none, none, ⟨none, none, none⟩⟩

/-- A two-level hierarchy `TOP` above `SUB`, two polling attempts. -/
def stEx : Settings := ⟨[("TOP", "uuid-top"), ("SUB", "uuid-sub")], 2⟩

/-- An MO unit at level `SUB` with the valid code `AB`. -/
def unitEx : MOUnit := ⟨"Unit A", "AB", "uuid-sub", "u-uuid"⟩

/-- Its MO parent at level `TOP`. -/
def parentEx : MOUnit := ⟨"Parent", "PA", "uuid-top", "p-uuid"⟩

/-- The create/move payload `_payload_create` builds from `unitEx` and
`parentEx` under `stEx`. -/
def pcEx : CreatePayload := ⟨"Unit A", "PA", "p-uuid", "TOP", "AB", "SUB", "u-uuid"⟩

/-- An environment where the duplicate-code lookup finds nothing, the
parent lookup (which passes a level) finds `pdEx`, and polling never
finds the unit. -/
def envEx : Env :=
  ⟨fun _ _ level => if level.isSome then .one pdEx else .missing,
   fun _ => .missing, fun _ => none, fun _ _ => .ok []⟩

/-- A production-unit-number address detail. -/
def pnumDetail : AddressDetail := ⟨"PNUMBER", "pnum-key", "0123456789"⟩

/-- A found department whose unit code does not match `pcEx`. -/
def dMis : Department :=
  ⟨some "2020-01-01", some "Unit A", some "XX", some "u-uuid", some "SUB",
   none, none, ⟨none, none, none⟩⟩

/-- Like `envEx` but polling finds `dMis` (mismatching unit code) with
a matching parent. -/
def envW6 : Env :=
  ⟨fun _ _ level => if level.isSome then .one pdEx else .missing,
   fun _ => .one dMis, fun _ => some ⟨some "p-uuid"⟩, fun _ _ => .ok []⟩

/-! ### Helper lemmas -/

theorem breakLastSpace_eq_none {l : List Char} (h : ∀ c ∈ l, c ≠ ' ') :
    breakLastSpace l = none := by
  induction l with
  | nil => rfl
  | cons c cs ih =>
    have hc : c ≠ ' ' := h c (List.mem_cons_self c cs)
    have ihcs := ih (fun x hx => h x (List.mem_cons_of_mem c hx))
    simp [breakLastSpace, ihcs, hc]

theorem breakLastSpace_append {l r : List Char} (h : ∀ c ∈ r, c ≠ ' ') :
    breakLastSpace (l ++ ' ' :: r) = some (l, r) := by
  induction l with
  | nil => simp [breakLastSpace, breakLastSpace_eq_none h]
  | cons c cs ih => simp [breakLastSpace, ih]

/-- `(s ++ t).data = s.data ++ t.data`. -/
theorem string_data_append (s t : String) : (s ++ t).data = s.data ++ t.data := rfl

theorem space_data : (" " : String).data = [' '] := rfl

theorem string_mk_data (s : String) : String.mk s.data = s := rfl

theorem mem_cmpNe {x : String} {a e : Option String} {lbl : String}
    (h : x ∈ cmpNe a e lbl) : x = lbl := by
  unfold cmpNe at h
  rcases e with _ | e
  · simp at h
  · by_cases hne : a ≠ some e <;> simp [hne] at h <;> exact h

theorem notMem_cmpNe {x : String} {a e : Option String} {lbl : String}
    (h : x ≠ lbl) : x ∉ cmpNe a e lbl :=
  fun hm => h (mem_cmpNe hm)

theorem mem_cmpNe_iff {x : String} {a e : Option String} {lbl : String} :
    x ∈ cmpNe a e lbl ↔ x = lbl ∧ ∃ v, e = some v ∧ a ≠ some v := by
  unfold cmpNe
  rcases e with _ | v
  · simp
  · by_cases h : a = some v <;> simp [h]

theorem mem_ite_nil_iff {α : Type} {x : α} {c : Prop} [Decidable c] {L : List α} :
    (x ∈ if c then L else []) ↔ c ∧ x ∈ L := by
  split <;> simp_all

/-! Classification of the errors each modelled function can raise. -/

theorem readDepartmentE_err {env : Env} {a b c : Option String} {e : Err}
    (h : readDepartmentE env a b c = .error e) : e = .nonUniqueDepartment := by
  unfold readDepartmentE at h
  split at h <;> simp_all

theorem validate_unit_code_err {env : Env} {c : Option String} {ce : Bool} {e : Err}
    (h : validate_unit_code env c ce = .error e) : e = .nonUniqueDepartment := by
  unfold validate_unit_code at h
  split at h
  · rcases hr : readDepartmentE env c none none with e' | (_ | d) <;> rw [hr] at h
    · exact (Except.error.inj h) ▸ readDepartmentE_err hr
    · simp at h
    · simp at h
  · simp at h

theorem get_dar_address_go_err {lookup : String → String → Except Unit (List String)}
    {addrid : String} {eps : List String} {e : Err}
    (h : (get_dar_address_go lookup addrid eps).2 = .error e) :
    e = .darLookupFailed addrid ∨ e = .darNotFound addrid := by
  induction eps with
  | nil => simp [get_dar_address_go] at h; simp [h]
  | cons p ps ih =>
    unfold get_dar_address_go at h
    rcases hl : lookup addrid p with u | (_ | ⟨v, vs⟩) <;> rw [hl] at h <;> simp_all

theorem get_dar_address_err {lookup : String → String → Except Unit (List String)}
    {addrid : String} {e : Err} (h : get_dar_address lookup addrid = .error e) :
    e = .darLookupFailed addrid ∨ e = .darNotFound addrid :=
  get_dar_address_go_err h

theorem grouped_addresses_go_err {lookup : String → String → Except Unit (List String)}
    {s k : List (String × List String)} {ds : List AddressDetail} {e : Err}
    (h : grouped_addresses_go lookup s k ds = .error e) :
    ∃ a, e = .darLookupFailed a ∨ e = .darNotFound a := by
  induction ds generalizing s k with
  | nil => simp [grouped_addresses_go] at h
  | cons d rest ih =>
    unfold grouped_addresses_go at h
    by_cases hd : d.scope = "DAR"
    · simp only [hd, if_pos] at h
      rcases hg : get_dar_address lookup d.value with e' | v <;>
        simp only [hg] at h
      · have he : e' = e := Except.error.inj h
        exact ⟨d.value, he ▸ get_dar_address_err hg⟩
      · exact ih h
    · simp only [hd, if_neg] at h
      exact ih h

theorem mo_to_sd_address_err {x : Option String} {e : Err}
    (h : mo_to_sd_address x = .error e) : e = .valueError := by
  rcases x with _ | a
  · simp [mo_to_sd_address] at h
  · simp only [mo_to_sd_address] at h
    rcases hr : pyRsplit2 a with _ | ⟨s1, _ | ⟨s2, _ | ⟨s3, _ | ⟨s4, rest⟩⟩⟩⟩ <;>
      rw [hr] at h <;> simp_all

theorem grouped_addresses_err {lookup : String → String → Except Unit (List String)}
    {ds : List AddressDetail} {e : Err}
    (h : grouped_addresses lookup ds = .error e) :
    ∃ a, e = .darLookupFailed a ∨ e = .darNotFound a := by
  unfold grouped_addresses at h
  exact grouped_addresses_go_err h

theorem payload_edit_err {lookup : String → String → Except Unit (List String)}
    {uu : String} {un : MOUnit} {ads : List AddressDetail} {e : Err}
    (h : payload_edit lookup uu un ads = .error e) :
    e = .orderingViolation ∨ e = .valueError ∨
      ∃ a, e = .darLookupFailed a ∨ e = .darNotFound a := by
  unfold payload_edit at h
  rcases hg : grouped_addresses lookup ads with e' | ⟨s, k⟩ <;> simp only [hg] at h
  · have he : e' = e := Except.error.inj h
    exact .inr (.inr (he ▸ grouped_addresses_err hg))
  · split at h
    · exact .inl (Except.error.inj h).symm
    · rcases hm : mo_to_sd_address (assocFirst s "DAR") with e'' | adr <;>
        simp only [hm] at h
      · have he : e'' = e := Except.error.inj h
        exact .inr (.inl (he ▸ mo_to_sd_address_err hm))
      · simp at h

theorem nameCmp_err {a ex : Option String} {e : Err}
    (h : nameCmp a ex = .error e) : e = .typeError := by
  rcases ex with _ | v
  · simp [nameCmp] at h
  · rcases a with _ | av
    · simp [nameCmp] at h
      exact h.symm
    · simp [nameCmp] at h

theorem check_department_err {dr : DeptResult} {pr : Option ParentInfo}
    {fd op : String} {p : CheckPayload} {e : Err}
    (h : check_department dr pr fd op p = .error e) :
    e = .nonUniqueDepartment ∨ e = .typeError := by
  rcases dr with _ | d | _
  · simp [check_department] at h
  · simp only [check_department] at h
    rcases hn : nameCmp d.departmentName p.unitName with e' | e2 <;> simp only [hn] at h
    · have he : e' = e := Except.error.inj h
      exact .inr (he ▸ nameCmp_err hn)
    · simp at h
  · simp only [check_department] at h
    exact .inl (Except.error.inj h).symm

theorem check_unit_aux_err {f : Nat → Except Err (Option Department × List String)}
    {i fuel : Nat} {acc : Option Department × Option (List String)} {e : Err}
    (h : check_unit_aux f i fuel acc = .error e) : ∃ j, f j = .error e := by
  induction fuel generalizing i acc with
  | zero => simp [check_unit_aux] at h
  | succ n ih =>
    unfold check_unit_aux at h
    rcases hf : f i with e' | ⟨u0, e0⟩ <;> simp only [hf] at h
    · exact ⟨i, hf.trans (congrArg Except.error (Except.error.inj h))⟩
    · by_cases hs : u0.isSome
      · rw [if_pos hs] at h
        simp at h
      · rw [if_neg hs] at h
        exact ih h

theorem check_unit_aux_ok_some {f : Nat → Except Err (Option Department × List String)}
    {i fuel : Nat} {acc : Option Department × Option (List String)}
    {u : Option Department} {errs : List String}
    (h : check_unit_aux f i fuel acc = .ok (u, some errs)) :
    acc = (u, some errs) ∨ ∃ j, f j = .ok (u, errs) := by
  induction fuel generalizing i acc with
  | zero =>
    left
    simpa [check_unit_aux] using h
  | succ n ih =>
    unfold check_unit_aux at h
    rcases hf : f i with e' | ⟨u0, e0⟩ <;> simp only [hf] at h
    · exact absurd h (by simp)
    · by_cases hs : u0.isSome
      · rw [if_pos hs] at h
        right
        refine ⟨i, ?_⟩
        simp only [Except.ok.injEq, Prod.mk.injEq, Option.some.injEq] at h
        rw [hf, h.1, h.2]
      · rw [if_neg hs] at h
        rcases ih h with hacc | hj
        · right
          refine ⟨i, ?_⟩
          simp only [Prod.mk.injEq, Option.some.injEq] at hacc
          rw [hf, hacc.1, hacc.2]
        · exact .inr hj

theorem check_unit_core_err {f : Nat → Except Err (Option Department × List String)}
    {n : Nat} {uu : Option String} {e : Err}
    (h : check_unit_core f n uu = .error e) :
    (∃ j, f j = .error e) ∨ e = .unitNotFound uu ∨ ∃ xs, e = .fieldErrors xs := by
  unfold check_unit_core at h
  rcases ha : check_unit_aux f 0 n (none, none) with e' | ⟨_ | u, _ | errs⟩ <;>
    rw [ha] at h <;> simp_all
  · exact .inl (check_unit_aux_err ha)
  · split at h
    · simp at h
    · have hfe : Err.fieldErrors errs = e := by simpa using h
      exact .inr (.inr ⟨errs, hfe.symm⟩)

theorem check_unit_core_fieldErrors
    {f : Nat → Except Err (Option Department × List String)}
    {n : Nat} {uu : Option String} {xs : List String}
    (h : check_unit_core f n uu = .error (.fieldErrors xs)) :
    (∃ j, f j = .error (.fieldErrors xs)) ∨ ∃ j u, f j = .ok (some u, xs) := by
  unfold check_unit_core at h
  rcases ha : check_unit_aux f 0 n (none, none) with e' | ⟨_ | u, _ | errs⟩ <;>
    rw [ha] at h <;> simp_all
  · exact .inl (check_unit_aux_err ha)
  · split at h
    · simp at h
    · have hex : errs = xs := by simpa using h
      subst hex
      rcases check_unit_aux_ok_some ha with hacc | ⟨j, hj⟩
      · simp at hacc
      · exact .inr ⟨j, u, hj⟩

theorem check_unit_flow_err {env : Env} {st : Settings} {fd op : String}
    {p : CheckPayload} {e : Err} (h : check_unit_flow env st fd op p = .error e) :
    e = .nonUniqueDepartment ∨ e = .typeError ∨ e = .unitNotFound p.unitUuid ∨
      ∃ xs, e = .fieldErrors xs := by
  rcases check_unit_core_err h with ⟨j, hj⟩ | he | ⟨xs, he⟩
  · rcases check_department_err hj with h1 | h1
    · exact .inl h1
    · exact .inr (.inl h1)
  · exact .inr (.inr (.inl he))
  · exact .inr (.inr (.inr ⟨xs, he⟩))

theorem check_unit_flow_not_validation {env : Env} {st : Settings} {fd op : String}
    {p : CheckPayload} {e : Err} (h : check_unit_flow env st fd op p = .error e) :
    isValidationErr e = false := by
  rcases check_unit_flow_err h with h1 | h1 | h1 | ⟨xs, h1⟩ <;> subst h1 <;> rfl

theorem payload_create_err {levels : List (String × String)} {uu : String}
    {un par : MOUnit} {e : Err}
    (h : payload_create levels uu un par = .error e) :
    e = .unknownUnitLevel ∨ e = .unknownParentLevel := by
  unfold payload_create at h
  rcases hu : levelByUuid levels un.orgUnitLevelUuid with _ | ul <;> simp only [hu] at h
  · exact .inl (Except.error.inj h).symm
  · split at h
    · exact .inl (Except.error.inj h).symm
    · rcases hp : levelByUuid levels par.orgUnitLevelUuid with _ | pl <;>
        simp only [hp] at h
      · exact .inr (Except.error.inj h).symm
      · split at h
        · exact .inr (Except.error.inj h).symm
        · simp at h

theorem create_unit_low_err {env : Env} {st : Settings} {pc : CreatePayload}
    {t : Bool} {e : Err} {l : List WireDoc}
    (h : create_unit_low env st pc t = (l, .error e)) :
    l = [] ∧
      (e = .nonUniqueDepartment ∨ (∃ xs, e = .codeErrors xs) ∨ e = .parentNotFound ∨
       e = .keyError ∨ e = .valueError ∨ e = .structuralViolation) := by
  unfold create_unit_low at h
  rcases hv : validate_unit_code env (some pc.unitCode) false with e' | verrs <;>
    simp only [hv] at h
  · rw [Prod.mk.injEq] at h
    exact ⟨h.1.symm, .inl ((Except.error.inj h.2) ▸ validate_unit_code_err hv)⟩
  · split at h
    · rw [Prod.mk.injEq] at h
      exact ⟨h.1.symm, .inr (.inl ⟨verrs, (Except.error.inj h.2).symm⟩)⟩
    · rcases hrd : readDepartmentE env (some pc.parentCode) none (some pc.parentLevel) with
        e'' | (_ | pd) <;> simp only [hrd] at h
      · rw [Prod.mk.injEq] at h
        exact ⟨h.1.symm, .inl ((Except.error.inj h.2) ▸ readDepartmentE_err hrd)⟩
      · rw [Prod.mk.injEq] at h
        exact ⟨h.1.symm, .inr (.inr (.inl (Except.error.inj h.2).symm))⟩
      · rcases hlv : pd.departmentLevelIdentifier with _ | pdl <;> simp only [hlv] at h
        · rw [Prod.mk.injEq] at h
          exact ⟨h.1.symm, .inr (.inr (.inr (.inl (Except.error.inj h.2).symm)))⟩
        · rcases hfi : (st.sd_levels.map (fun p => p.1)).findIdx? (· = pc.unitLevel) with
            _ | ui <;> simp only [hfi] at h
          · rw [Prod.mk.injEq] at h
            exact ⟨h.1.symm, .inr (.inr (.inr (.inr (.inl (Except.error.inj h.2).symm))))⟩
          · rcases hfj : (st.sd_levels.map (fun p => p.1)).findIdx? (· = pdl) with
              _ | pj <;> simp only [hfj] at h
            · rw [Prod.mk.injEq] at h
              exact ⟨h.1.symm, .inr (.inr (.inr (.inr (.inl (Except.error.inj h.2).symm))))⟩
            · split at h
              · simp [Prod.mk.injEq] at h
              · rw [Prod.mk.injEq] at h
                exact ⟨h.1.symm,
                  .inr (.inr (.inr (.inr (.inr (Except.error.inj h.2).symm))))⟩

theorem check_department_ok_no_name {dr : DeptResult} {pr : Option ParentInfo}
    {fd op : String} {p : CheckPayload} {u : Option Department} {errs : List String}
    (hname : p.unitName = none)
    (h : check_department dr pr fd op p = .ok (u, errs)) : "Name" ∉ errs := by
  rcases dr with _ | d | _
  · simp only [check_department, Except.ok.injEq, Prod.mk.injEq] at h
    rw [← h.2]
    simp
  · rcases hA : p.adresse with _ | a <;> rcases hP : p.parent with _ | pu <;>
      rcases pr with _ | pa <;>
    · simp only [check_department, hname, nameCmp, hA, hP, Except.ok.injEq,
        Prod.mk.injEq] at h
      rw [← h.2]
      simp [mem_cmpNe_iff, mem_ite_nil_iff, List.mem_append]
  · simp [check_department] at h

theorem check_unit_flow_no_name {env : Env} {st : Settings} {fd op : String}
    {p : CheckPayload} {errs : List String} (hname : p.unitName = none)
    (h : check_unit_flow env st fd op p = .error (.fieldErrors errs)) :
    "Name" ∉ errs := by
  rcases check_unit_core_fieldErrors h with ⟨j, hj⟩ | ⟨j, u, hj⟩
  · rcases check_department_err hj with h1 | h1 <;> simp at h1
  · exact check_department_ok_no_name hname hj

theorem update_ou_flow_err {env : Env} {st : Settings} {uu : String} {un : MOUnit}
    {ads : List AddressDetail} {dr : Bool} {fd : String} {e : Err} {l : List WireDoc}
    (h : update_ou_flow env st uu un ads dr fd = (l, .error e)) :
    (e = .orderingViolation ∨ e = .valueError ∨
      (∃ a, e = .darLookupFailed a ∨ e = .darNotFound a)) ∨
    (e = .nonUniqueDepartment ∨ e = .typeError ∨ (∃ v, e = .unitNotFound v) ∨
      ∃ xs, e = .fieldErrors xs) := by
  unfold update_ou_flow at h
  rcases hpe : payload_edit env.darLookup uu un ads with e' | pe <;> simp only [hpe] at h
  · rw [Prod.mk.injEq] at h
    exact .inl ((Except.error.inj h.2) ▸ payload_edit_err hpe)
  · rw [Prod.mk.injEq] at h
    rcases check_unit_flow_err h.2 with h1 | h1 | h1 | h1
    · exact .inr (.inl h1)
    · exact .inr (.inr (.inl h1))
    · exact .inr (.inr (.inr (.inl ⟨_, h1⟩)))
    · exact .inr (.inr (.inr (.inr h1)))

theorem update_ou_flow_validation_log {env : Env} {st : Settings} {uu : String}
    {un : MOUnit} {ads : List AddressDetail} {dr : Bool} {fd : String} {e : Err}
    {l : List WireDoc}
    (h : update_ou_flow env st uu un ads dr fd = (l, .error e))
    (hv : isValidationErr e = true) : l = [] := by
  unfold update_ou_flow at h
  rcases hpe : payload_edit env.darLookup uu un ads with e' | pe <;> simp only [hpe] at h
  · rw [Prod.mk.injEq] at h
    exact h.1.symm
  · rw [Prod.mk.injEq] at h
    rw [check_unit_flow_not_validation h.2] at hv
    cases hv

theorem isCreatePre_isValidation {e : Err} (h : isCreatePreValidationErr e = true) :
    isValidationErr e = true := by
  cases e <;> simp_all [isCreatePreValidationErr, isValidationErr]

/-! Association-list and grouping lemmas for the ordering invariant. -/

theorem assocHas_assocAppend {m : List (String × List String)} {k v key : String} :
    assocHas (assocAppend m k v) key = true ↔ (assocHas m key = true ∨ key = k) := by
  induction m with
  | nil =>
    simp [assocAppend, assocHas]
    exact eq_comm
  | cons p rest ih =>
    rcases p with ⟨k', vs⟩
    by_cases hk : k' = k
    · subst hk
      have hred : assocAppend ((k', vs) :: rest) k' v = (k', vs ++ [v]) :: rest := by
        simp [assocAppend]
      rw [hred]
      simp only [assocHas, List.any_cons, Bool.or_eq_true, decide_eq_true_eq]
      constructor
      · rintro (h | h)
        · exact .inl (.inl h)
        · exact .inl (.inr h)
      · rintro ((h | h) | h)
        · exact .inl h
        · exact .inr h
        · exact .inl h.symm
    · simp only [assocAppend, if_neg hk]
      simp only [assocHas, List.any_cons] at ih ⊢
      simp only [Bool.or_eq_true] at ih ⊢
      tauto

theorem grouped_addresses_go_hasKey {lookup : String → String → Except Unit (List String)}
    {s k s' k' : List (String × List String)} {ds : List AddressDetail} {key : String}
    (h : grouped_addresses_go lookup s k ds = .ok (s', k')) :
    (assocHas s' key = true ↔ assocHas s key = true ∨ ∃ d ∈ ds, d.scope = key) := by
  induction ds generalizing s k with
  | nil =>
    simp only [grouped_addresses_go, Except.ok.injEq, Prod.mk.injEq] at h
    rw [← h.1]
    simp
  | cons d rest ih =>
    unfold grouped_addresses_go at h
    rcases hres : (if d.scope = "DAR" then get_dar_address lookup d.value
        else .ok d.value) with e | v <;> simp only [hres] at h
    · simp at h
    · rw [ih h]
      simp only [assocHas_assocAppend, List.mem_cons]
      constructor
      · rintro (⟨hs | hk⟩ | ⟨d', hd', hsc⟩)
        · exact .inl hs
        · exact .inr ⟨d, .inl rfl, hk.symm⟩
        · exact .inr ⟨d', .inr hd', hsc⟩
      · rintro (hs | ⟨d', rfl | hd', hsc⟩)
        · exact .inl (.inl hs)
        · exact .inl (.inr hsc.symm)
        · exact .inr ⟨d', hd', hsc⟩

theorem grouped_addresses_go_noDAR {lookup : String → String → Except Unit (List String)}
    {ds : List AddressDetail} (hnd : ∀ d ∈ ds, d.scope ≠ "DAR") :
    ∀ s k, ∃ s' k', grouped_addresses_go lookup s k ds = .ok (s', k') := by
  induction ds with
  | nil => exact fun s k => ⟨s, k, rfl⟩
  | cons d rest ih =>
    intro s k
    have hd : d.scope ≠ "DAR" := hnd d (List.mem_cons_self d rest)
    obtain ⟨s', k', hres⟩ := ih (fun x hx => hnd x (List.mem_cons_of_mem d hx))
      (assocAppend s d.scope d.value) (assocAppend k d.userKey d.value)
    refine ⟨s', k', ?_⟩
    unfold grouped_addresses_go
    rw [if_neg hd]
    exact hres

theorem payload_edit_dar_no_ordering {lookup : String → String → Except Unit (List String)}
    {uu : String} {un : MOUnit} {ads : List AddressDetail}
    (hdar : ∃ d ∈ ads, d.scope = "DAR") :
    payload_edit lookup uu un ads ≠ .error .orderingViolation := by
  intro h
  rcases payload_edit_err h with h1 | h1 | ⟨a, h1 | h1⟩
  · unfold payload_edit at h
    rcases hg : grouped_addresses lookup ads with e' | ⟨s, kk⟩ <;> simp only [hg] at h
    · rcases grouped_addresses_err hg with ⟨a, ha | ha⟩ <;> simp [ha] at h
    · have hhas : assocHas s "DAR" = true := by
        unfold grouped_addresses at hg
        exact (grouped_addresses_go_hasKey hg).2 (.inr hdar)
      rw [if_neg (by simp [hhas])] at h
      rcases hm : mo_to_sd_address (assocFirst s "DAR") with e'' | adr <;>
        simp only [hm] at h
      · have := mo_to_sd_address_err hm
        subst this
        exact absurd (Except.error.inj h) (by simp)
      · simp at h
  · simp at h1
  · simp at h1
  · simp at h1

theorem move_unit_low_err {env : Env} {st : Settings} {pc : CreatePayload}
    {t : Bool} {e : Err} {l : List WireDoc}
    (h : move_unit_low env st pc t = (l, .error e)) :
    l = [] ∧
      (e = .nonUniqueDepartment ∨ (∃ xs, e = .codeErrors xs) ∨ e = .parentNotFound ∨
       e = .keyError ∨ e = .valueError ∨ e = .structuralViolation) := by
  unfold move_unit_low at h
  rcases hv : validate_unit_code env (some pc.unitCode) true with e' | verrs <;>
    simp only [hv] at h
  · rw [Prod.mk.injEq] at h
    exact ⟨h.1.symm, .inl ((Except.error.inj h.2) ▸ validate_unit_code_err hv)⟩
  · split at h
    · rw [Prod.mk.injEq] at h
      exact ⟨h.1.symm, .inr (.inl ⟨verrs, (Except.error.inj h.2).symm⟩)⟩
    · rcases hrd : readDepartmentE env (some pc.parentCode) none (some pc.parentLevel) with
        e'' | (_ | pd) <;> simp only [hrd] at h
      · rw [Prod.mk.injEq] at h
        exact ⟨h.1.symm, .inl ((Except.error.inj h.2) ▸ readDepartmentE_err hrd)⟩
      · rw [Prod.mk.injEq] at h
        exact ⟨h.1.symm, .inr (.inr (.inl (Except.error.inj h.2).symm))⟩
      · rcases hlv : pd.departmentLevelIdentifier with _ | pdl <;> simp only [hlv] at h
        · rw [Prod.mk.injEq] at h
          exact ⟨h.1.symm, .inr (.inr (.inr (.inl (Except.error.inj h.2).symm)))⟩
        · rcases hfi : (st.sd_levels.map (fun p => p.1)).findIdx? (· = pc.unitLevel) with
            _ | ui <;> simp only [hfi] at h
          · rw [Prod.mk.injEq] at h
            exact ⟨h.1.symm, .inr (.inr (.inr (.inr (.inl (Except.error.inj h.2).symm))))⟩
          · rcases hfj : (st.sd_levels.map (fun p => p.1)).findIdx? (· = pdl) with
              _ | pj <;> simp only [hfj] at h
            · rw [Prod.mk.injEq] at h
              exact ⟨h.1.symm, .inr (.inr (.inr (.inr (.inl (Except.error.inj h.2).symm))))⟩
            · split at h
              · simp [Prod.mk.injEq] at h
              · rw [Prod.mk.injEq] at h
                exact ⟨h.1.symm,
                  .inr (.inr (.inr (.inr (.inr (Except.error.inj h.2).symm))))⟩

/-! ## Claim C4: unit-code syntax validation -/

namespace SdMox

/-- C4 counterexample input: the empty unit code.  It yields the length
and character-set violations, NOT the presence violation the claim
predicts for an empty code (the presence check fires only on `None`). -/
theorem validate_empty_code :
    validate_unit_code_format (some "") =
      ["Enhedsnummer for kort", "Ugyldigt tegn i enhedsnummer"] ∧
    "Enhedsnummer ikke angivet" ∉ validate_unit_code_format (some "") :=
  ⟨rfl, by decide⟩

/-- C4 (amended): the syntax checks are collected independently; the
presence violation fires exactly on `None` (never on any present code,
including the empty one), the length / character-set / case violations
are each present iff their rule is broken, and every 2-4 character
upper-case alphanumeric code validates cleanly. -/
theorem validate_unit_code_format_spec :
    validate_unit_code_format none = ["Enhedsnummer ikke angivet"]
    ∧ (∀ code : String, "Enhedsnummer ikke angivet" ∉ validate_unit_code_format (some code))
    ∧ (∀ code : String,
        ("Enhedsnummer for kort" ∈ validate_unit_code_format (some code) ↔ code.length < 2))
    ∧ (∀ code : String,
        ("Enhedsnummer for langt" ∈ validate_unit_code_format (some code) ↔ 4 < code.length))
    ∧ (∀ code : String,
        ("Ugyldigt tegn i enhedsnummer" ∈ validate_unit_code_format (some code) ↔
          pyIsAlnum code = false))
    ∧ (∀ code : String,
        ("Enhedsnummer skal være store bogstaver" ∈ validate_unit_code_format (some code) ↔
          pyUpper code ≠ code))
    ∧ (∀ code : String, 2 ≤ code.length → code.length ≤ 4 →
        pyIsAlnum code = true → pyUpper code = code →
        validate_unit_code_format (some code) = []) := by
  refine ⟨rfl, ?_, ?_, ?_, ?_, ?_, ?_⟩ <;> intro code <;>
    simp only [validate_unit_code_format, List.mem_append] <;>
    split_ifs <;> simp_all <;> omega

/-- C4 witness: the valid code `AB12` satisfies all hypotheses of the
clean-validation conjunct and indeed yields no violations. -/
theorem validate_unit_code_format_spec_witness :
    2 ≤ ("AB12" : String).length ∧ ("AB12" : String).length ≤ 4 ∧
    pyIsAlnum "AB12" = true ∧ pyUpper "AB12" = "AB12" ∧
    validate_unit_code_format (some "AB12") = [] :=
  ⟨by decide, by decide, by decide, by decide,
   validate_unit_code_format_spec.2.2.2.2.2.2 "AB12" (by decide) (by decide)
     (by decide) (by decide)⟩

end SdMox

/-! ## Claim C3: postal address decomposition -/

namespace SdMox

/-- C3 counterexample: a resolved DAR label without two spaces makes
the three-way tuple unpacking in `_mo_to_sd_address` raise a bare
Python `ValueError`, which is not an `SDMoxError` (so not the
`AddressResolutionError` the claim names); the enclosing edit
operation propagates it. -/
theorem mo_to_sd_address_short_label :
    mo_to_sd_address (some "Foo") = .error .valueError ∧
    payload_edit (fun _ _ => .ok ["Foo"]) "u-uuid" ⟨"N", "NK", "lvl", "u-uuid"⟩
      [⟨"DAR", "dar-key", "some-dar-id"⟩] = .error .valueError ∧
    Err.valueError.isSDMoxError = false :=
  ⟨rfl, rfl, rfl⟩

/-- C3 (amended): a label of the form `street ++ " " ++ zip ++ " " ++
city` (zip and city space-free) is decomposed by splitting on the SPACE
character from the right, the street part losing one trailing comma and
all three parts being stripped; a label with fewer than two spaces
makes the operation fail with an uncaught `ValueError` from tuple
unpacking, not with an `SDMoxError`. -/
theorem mo_to_sd_address_spec :
    (∀ street zipc city : String,
      (∀ c ∈ zipc.data, c ≠ ' ') → (∀ c ∈ city.data, c ≠ ' ') →
      mo_to_sd_address (some (street ++ " " ++ zipc ++ " " ++ city)) =
        .ok (some ⟨pyStrip (String.mk (stripTrailingComma street.data)),
                   pyStrip zipc, pyStrip city⟩))
    ∧ (∀ s : String, (∀ c ∈ s.data, c ≠ ' ') →
        mo_to_sd_address (some s) = .error .valueError)
    ∧ (∀ a b : String, (∀ c ∈ a.data, c ≠ ' ') → (∀ c ∈ b.data, c ≠ ' ') →
        mo_to_sd_address (some (a ++ " " ++ b)) = .error .valueError)
    ∧ Err.valueError.isSDMoxError = false := by
  refine ⟨?_, ?_, ?_, rfl⟩
  · intro street zipc city hz hc
    have hdata : (street ++ " " ++ zipc ++ " " ++ city).data
        = (street.data ++ ' ' :: zipc.data) ++ ' ' :: city.data := by
      simp [string_data_append, space_data]
    have h1 : breakLastSpace ((street.data ++ ' ' :: zipc.data) ++ ' ' :: city.data)
        = some (street.data ++ ' ' :: zipc.data, city.data) := breakLastSpace_append hc
    have h2 : breakLastSpace (street.data ++ ' ' :: zipc.data)
        = some (street.data, zipc.data) := breakLastSpace_append hz
    simp only [mo_to_sd_address, pyRsplit2, hdata, h1, h2, string_mk_data]
  · intro s hs
    simp [mo_to_sd_address, pyRsplit2, breakLastSpace_eq_none hs]
  · intro a b ha hb
    have hdata : (a ++ " " ++ b).data = a.data ++ ' ' :: b.data := by
      simp [string_data_append, space_data]
    simp only [mo_to_sd_address, pyRsplit2, hdata, breakLastSpace_append hb,
      breakLastSpace_eq_none ha]

/-- C3 witness: the label from the repository's own test data
decomposes into street/zip/city with the trailing comma stripped. -/
theorem mo_to_sd_address_spec_witness :
    mo_to_sd_address (some ("Toftebjerghaven 4," ++ " " ++ "2750" ++ " " ++ "Ballerup")) =
      .ok (some ⟨pyStrip (String.mk (stripTrailingComma "Toftebjerghaven 4,".data)),
                 pyStrip "2750", pyStrip "Ballerup"⟩) :=
  mo_to_sd_address_spec.1 "Toftebjerghaven 4," "2750" "Ballerup"
    (by decide) (by decide)

end SdMox

/-! ## Claim C5: prefix comparison of names -/

namespace SdMox

/-- C5: when an expected name is supplied and the observed department
carries a name, the verification reports the `Name` mismatch exactly
when the expected name does not start with the observed name (so both
an exact match and an observed proper prefix of the expected name pass). -/
theorem check_department_name_prefix (d : Department) (pr : Option ParentInfo)
    (fd op : String) (p : CheckPayload) (exp obs : String)
    (hp : p.unitName = some exp) (hd : d.departmentName = some obs) :
    ∃ errs, check_department (.one d) pr fd op p = .ok (some d, errs)
      ∧ ("Name" ∈ errs ↔ ¬ exp.startsWith obs) := by
  rcases hA : p.adresse with _ | a <;> rcases hP : p.parent with _ | pu <;>
    rcases pr with _ | pa <;>
  · simp only [check_department, hp, hd, nameCmp, hA, hP]
    refine ⟨_, rfl, ?_⟩
    by_cases hsw : exp.startsWith obs <;>
      simp [hsw, mem_cmpNe_iff, mem_ite_nil_iff, List.mem_append]

/-- C5 witness: the truncated registry name `A-sdm` observed against
the requested `A-sdm1` (the spec's own rename scenario). -/
theorem check_department_name_prefix_witness :
    ∃ errs,
      check_department
        (.one ⟨some "2020-01-01", some "A-sdm", some "AB", some "u-uuid", some "NY1",
               none, none, ⟨none, none, none⟩⟩)
        none "2020-01-01" "ret"
        ⟨some "A-sdm1", none, none, none, none, none, none, none⟩ =
        .ok (some ⟨some "2020-01-01", some "A-sdm", some "AB", some "u-uuid", some "NY1",
                   none, none, ⟨none, none, none⟩⟩, errs)
      ∧ ("Name" ∈ errs ↔ ¬ ("A-sdm1".startsWith "A-sdm")) :=
  check_department_name_prefix _ none "2020-01-01" "ret" _ "A-sdm1" "A-sdm" rfl rfl

end SdMox

/-! ## Claim C9: None-valued expectations are skipped -/

namespace SdMox

/-- C9 counterexample: for operation `ret` the activation date is
compared against the (never-`None`) configured from-date even when
every payload expectation is `None`, so a found unit still yields a
mismatch and the all-`None` verification does NOT succeed. -/
theorem check_department_allNone_activation :
    check_department (.one deptStale) none "2020-01-01" "ret" allNonePayload =
      .ok (some deptStale, ["Activation Date"]) ∧
    check_unit_core
      (fun _ => check_department (.one deptStale) none "2020-01-01" "ret" allNonePayload)
      3 (some "u-uuid") = .error (.fieldErrors ["Activation Date"]) ∧
    (["Activation Date"] : List String) ≠ [] :=
  ⟨rfl, rfl, by simp⟩

/-- C9 (amended): every payload-driven comparison is skipped when its
expected value is `None`, and a verification whose expected values are
all `None` succeeds as soon as the unit is found — except that for
operations `ret`/`import` the activation date is still compared against
the configured effective date, which is never `None`. -/
theorem check_department_allNone_spec :
    (∀ (a : Option String) (lbl : String), cmpNe a none lbl = [])
    ∧ (∀ a : Option String, nameCmp a none = .ok [])
    ∧ (∀ (d : Department) (pr : Option ParentInfo) (fd op : String),
        (¬ (op = "ret" ∨ op = "import")) ∨ d.activationDate = some fd →
        check_department (.one d) pr fd op allNonePayload = .ok (some d, [])) := by
  refine ⟨fun a lbl => rfl, fun a => rfl, ?_⟩
  intro d pr fd op hcond
  rcases hcond with hop | hact
  · simp [check_department, allNonePayload, nameCmp, cmpNe, hop]
  · by_cases hop2 : (op = "ret" ∨ op = "import") <;>
      simp [check_department, allNonePayload, nameCmp, cmpNe, hop2, hact]

/-- C9 witness: a found department with the matching activation date
and an all-`None` payload verifies cleanly under operation `ret`. -/
theorem check_department_allNone_spec_witness :
    check_department (.one ⟨some "2020-01-01", some "N", some "AB", some "u", some "NY1",
        none, none, ⟨none, none, none⟩⟩) none "2020-01-01" "ret" allNonePayload =
      .ok (some ⟨some "2020-01-01", some "N", some "AB", some "u", some "NY1",
        none, none, ⟨none, none, none⟩⟩, []) :=
  check_department_allNone_spec.2.2 _ none "2020-01-01" "ret" (.inr rfl)

end SdMox

/-! ## Claim C1: the polling loop of the convergence check -/

namespace SdMox

theorem check_unit_aux_all_miss
    (f : Nat → Except Err (Option Department × List String)) :
    ∀ (fuel i : Nat) (acc2 : Option (List String)),
    (∀ j, i ≤ j → j < i + fuel → ∃ e, f j = .ok (none, e)) →
    ∃ e2, check_unit_aux f i fuel (none, acc2) = .ok (none, e2) := by
  intro fuel
  induction fuel with
  | zero => exact fun i acc2 _ => ⟨acc2, rfl⟩
  | succ n ih =>
    intro i acc2 h
    obtain ⟨e, hf⟩ := h i (Nat.le_refl i) (by omega)
    unfold check_unit_aux
    rw [hf]
    simp only [Option.isSome_none, Bool.false_eq_true, if_false]
    exact ih (i + 1) (some e) (fun j h1 h2 => h j (by omega) (by omega))

theorem check_unit_aux_first_found
    (f : Nat → Except Err (Option Department × List String))
    (u : Department) (errs : List String) :
    ∀ (k fuel i : Nat) (acc : Option Department × Option (List String)),
    k < fuel →
    (∀ j, i ≤ j → j < i + k → ∃ e, f j = .ok (none, e)) →
    f (i + k) = .ok (some u, errs) →
    check_unit_aux f i fuel acc = .ok (some u, some errs) := by
  intro k
  induction k with
  | zero =>
    intro fuel i acc hk _ hf
    rcases fuel with _ | m
    · omega
    · unfold check_unit_aux
      rw [Nat.add_zero] at hf
      rw [hf]
      simp
  | succ k' ih =>
    intro fuel i acc hk h hf
    rcases fuel with _ | m
    · omega
    · obtain ⟨e, hfi⟩ := h i (Nat.le_refl i) (by omega)
      unfold check_unit_aux
      rw [hfi]
      simp only [Option.isSome_none, Bool.false_eq_true, if_false]
      refine ih m (i + 1) (none, some e) (by omega)
        (fun j h1 h2 => h j (by omega) (by omega)) ?_
      have : i + 1 + k' = i + (k' + 1) := by omega
      rw [this]
      exact hf

/-- C1 counterexample: with two configured attempts, the first attempt
finding the unit WITH mismatches and the second attempt clean, the loop
reports the first attempt's mismatches — it breaks as soon as the unit
is found rather than retrying until mismatches clear, contradicting the
claimed early-stop-only-on-zero-mismatches behaviour. -/
theorem check_unit_breaks_on_found :
    check_unit_core
      (fun i => if i = 0 then .ok (some deptStale, ["Name"]) else .ok (some deptStale, []))
      2 (some "u-uuid") = .error (.fieldErrors ["Name"]) ∧
    (fun i => if i = 0 then .ok (some deptStale, ["Name"]) else
        (.ok (some deptStale, []) : Except Err (Option Department × List String))) 1 =
      .ok (some deptStale, []) ∧
    (["Name"] : List String) ≠ [] :=
  ⟨rfl, rfl, by simp⟩

/-- C1 (amended): the loop stops at the FIRST attempt that finds the
unit, regardless of mismatches: if the first `k` attempts miss and
attempt `k` (within the retry budget) finds the unit, the loop returns
that unit on zero mismatches and otherwise raises that attempt's
mismatches without further attempts; if every attempt misses, the
not-found error is raised. -/
theorem check_unit_core_spec :
    (∀ (f : Nat → Except Err (Option Department × List String)) (n k : Nat)
       (u : Department) (errs : List String) (uuidMsg : Option String),
      k < n →
      (∀ j, j < k → ∃ e, f j = .ok (none, e)) →
      f k = .ok (some u, errs) →
      check_unit_core f n uuidMsg =
        if errs = [] then .ok u else .error (.fieldErrors errs))
    ∧ (∀ (f : Nat → Except Err (Option Department × List String)) (n : Nat)
         (uuidMsg : Option String),
        (∀ j, j < n → ∃ e, f j = .ok (none, e)) →
        check_unit_core f n uuidMsg = .error (.unitNotFound uuidMsg)) := by
  constructor
  · intro f n k u errs uuidMsg hk hmiss hf
    have ha := check_unit_aux_first_found f u errs k n 0 (none, none) hk
      (fun j h1 h2 => hmiss j (by omega)) (by simpa using hf)
    simp only [check_unit_core, ha]
  · intro f n uuidMsg hmiss
    obtain ⟨e2, ha⟩ := check_unit_aux_all_miss f n 0 none
      (fun j h1 h2 => hmiss j (by omega))
    simp only [check_unit_core, ha]

/-- C1 witness: first attempt misses, second finds the unit with a
`Phone` mismatch inside a budget of two retries — the loop raises that
attempt's mismatch. -/
theorem check_unit_core_spec_witness :
    check_unit_core
      (fun i => if i = 0 then .ok (none, []) else .ok (some deptStale, ["Phone"]))
      2 (some "u-uuid") = .error (.fieldErrors ["Phone"]) := by
  have hall : ∀ j, j < 1 → ∃ e,
      (fun i => if i = 0 then .ok (none, []) else
        (.ok (some deptStale, ["Phone"]) : Except Err (Option Department × List String))) j =
        .ok (none, e) := by
    intro j hj
    have hj0 : j = 0 := by omega
    subst hj0
    exact ⟨[], rfl⟩
  have h := check_unit_core_spec.1
    (fun i => if i = 0 then .ok (none, []) else .ok (some deptStale, ["Phone"]))
    2 1 deptStale ["Phone"] (some "u-uuid") (by omega) hall rfl
  simpa using h

end SdMox

/-! ## Claim C10: DAR lookup fallback sequence -/

namespace SdMox

/-- C10: fallback endpoints are consulted in sequence only while each
returns an empty result without error.  After any prefix of
empty-without-error endpoints: an endpoint whose request raises aborts
the lookup at once with the DAR resolution error, the later endpoints
untouched (the consulted-endpoint trace is exactly the prefix plus that
endpoint); an endpoint with a non-empty result stops the sequence the
same way and yields the label of its LAST entry; and if every endpoint
returns empty without error the lookup fails with the not-found error
after consulting all of them.  `get_dar_address` is this loop over the
four fixed endpoints. -/
theorem get_dar_address_spec
    (lookup : String → String → Except Unit (List String)) (addrid : String) :
    (∀ pre ep post, (∀ x ∈ pre, lookup addrid x = .ok []) →
      ((lookup addrid ep = .error () →
          get_dar_address_go lookup addrid (pre ++ ep :: post) =
            (pre ++ [ep], .error (.darLookupFailed addrid)))
       ∧ (∀ e es, lookup addrid ep = .ok (e :: es) →
          get_dar_address_go lookup addrid (pre ++ ep :: post) =
            (pre ++ [ep], .ok (es.getLastD e)))))
    ∧ (∀ eps, (∀ x ∈ eps, lookup addrid x = .ok []) →
        get_dar_address_go lookup addrid eps = (eps, .error (.darNotFound addrid)))
    ∧ get_dar_address lookup addrid =
        (get_dar_address_go lookup addrid dar_address_endpoints).2 := by
  refine ⟨?_, ?_, rfl⟩
  · intro pre ep post hpre
    induction pre with
    | nil =>
      constructor
      · intro herr
        simp [get_dar_address_go, herr]
      · intro e es hok
        simp [get_dar_address_go, hok]
    | cons p ps ih =>
      have hp : lookup addrid p = .ok [] := hpre p (List.mem_cons_self p ps)
      have ihs := ih (fun x hx => hpre x (List.mem_cons_of_mem p hx))
      constructor
      · intro herr
        simp [get_dar_address_go, hp, ihs.1 herr]
      · intro e es hok
        simp [get_dar_address_go, hp, ihs.2 e es hok]
  · intro eps heps
    induction eps with
    | nil => simp [get_dar_address_go]
    | cons p ps ih =>
      have hp : lookup addrid p = .ok [] := heps p (List.mem_cons_self p ps)
      have ihs := ih (fun x hx => heps x (List.mem_cons_of_mem p hx))
      simp [get_dar_address_go, hp, ihs]

/-- C10 witness: with the first endpoint empty and the second holding
two entries, the lookup stops at the second endpoint and returns the
last entry's label. -/
theorem get_dar_address_spec_witness :
    get_dar_address_go
      (fun _ ep => if ep = "adresser" then .ok [] else .ok ["lbl-a", "lbl-b"])
      "some-id" (["adresser"] ++ "adgangsadresser" :: ["historik/adresser", "historik/adgangsadresser"]) =
      (["adresser"] ++ ["adgangsadresser"], .ok (["lbl-b"].getLastD "lbl-a")) :=
  ((get_dar_address_spec
      (fun _ ep => if ep = "adresser" then .ok [] else .ok ["lbl-a", "lbl-b"])
      "some-id").1 ["adresser"] "adgangsadresser"
      ["historik/adresser", "historik/adgangsadresser"]
      (by intro x hx; simp at hx; subst hx; rfl)).2 "lbl-a" ["lbl-b"] rfl

end SdMox

/-! ## Claim C6: the move operation never reports a name mismatch -/

namespace SdMox

/-- C6: `move_unit` clears the expected name before the convergence
check, so whatever the registry reports as the unit's name, a move can
never fail verification on the `Name` field. -/
theorem move_unit_no_name_mismatch (env : Env) (st : Settings) (uu : String)
    (ud np : MOUnit) (dr : Bool) (fd : String) (errs : List String)
    (h : (move_unit_flow env st uu ud np dr fd).2 = .error (.fieldErrors errs)) :
    "Name" ∉ errs := by
  unfold move_unit_flow at h
  rcases hv : validate_unit_code env (some ud.userKey) true with e | verrs <;>
    simp only [hv] at h
  · simp at h
    have := validate_unit_code_err hv
    simp [h] at this
  · split at h
    · simp at h
    · rcases hpc : payload_create st.sd_levels uu ud np with e | pc <;>
        simp only [hpc] at h
      · simp at h
        rcases payload_create_err hpc with h1 | h1 <;> simp [h] at h1
      · rcases hml : move_unit_low env st pc dr with ⟨l1, r1⟩
        rcases r1 with e | s
        · simp only [hml] at h
          simp at h
          rcases (move_unit_low_err hml).2 with h1 | ⟨xs, h1⟩ | h1 | h1 | h1 | h1 <;>
            simp [h] at h1
        · simp only [hml] at h
          exact check_unit_flow_no_name rfl h

/-- C6 witness: a move whose polled department has a wrong unit code
and a name differing entirely from the requested one fails verification
on `Unit code` only — `Name` is not among the mismatches. -/
theorem move_unit_no_name_mismatch_witness :
    "Name" ∉ ["Unit code"] :=
  move_unit_no_name_mismatch envW6 stEx "u-uuid" unitEx parentEx false "2020-01-01"
    ["Unit code"] rfl

end SdMox

/-! ## Claim C7: strict level-rank check before create/move submission -/

namespace SdMox

/-- C7: when the unit code validates, the parent department is found
and both levels resolve in the configured hierarchy, a create or move
submission proceeds (rendering and, unless a test run, publishing its
wire document) iff the unit's level rank is strictly greater (deeper)
than the parent's; otherwise it aborts with the structural-violation
error and no wire document. -/
theorem create_move_level_rank (env : Env) (st : Settings) (pc : CreatePayload)
    (testRun : Bool) (pd : Department) (pdl : String) (ui pj : Nat)
    (hrd : readDepartmentE env (some pc.parentCode) none (some pc.parentLevel) =
      .ok (some pd))
    (hlv : pd.departmentLevelIdentifier = some pdl)
    (hui : (st.sd_levels.map (fun p => p.1)).findIdx? (· = pc.unitLevel) = some ui)
    (hpj : (st.sd_levels.map (fun p => p.1)).findIdx? (· = pdl) = some pj) :
    (validate_unit_code env (some pc.unitCode) false = .ok [] →
      create_unit_low env st pc testRun =
        (if ui > pj then
          ((if testRun then [] else
            [WireDoc.createDoc pc.unitName pc.unitUuid pc.unitCode pc.unitLevel
              pc.parentUuid]), .ok pc.unitUuid)
         else ([], .error .structuralViolation)))
    ∧ (validate_unit_code env (some pc.unitCode) true = .ok [] →
      move_unit_low env st pc testRun =
        (if ui > pj then
          ((if testRun then [] else
            [WireDoc.flytDoc pc.unitName pc.unitUuid pc.unitCode pc.unitLevel
              pc.parentUuid]), .ok pc.unitUuid)
         else ([], .error .structuralViolation))) := by
  constructor
  · intro hv
    unfold create_unit_low
    simp only [hv, hrd, hlv, hui, hpj]
    split <;> simp_all
  · intro hv
    unfold move_unit_low
    simp only [hv, hrd, hlv, hui, hpj]
    split <;> simp_all

/-- C7 witness: under the two-level hierarchy the `SUB`-level unit
under the `TOP`-level parent has strictly greater rank (1 > 0), so the
non-test create proceeds and publishes its document. -/
theorem create_move_level_rank_witness :
    create_unit_low envEx stEx pcEx false =
      ((if false then [] else
        [WireDoc.createDoc pcEx.unitName pcEx.unitUuid pcEx.unitCode pcEx.unitLevel
          pcEx.parentUuid]), .ok pcEx.unitUuid) := by
  have h := (create_move_level_rank envEx stEx pcEx false pdEx "TOP" 1 0
    rfl rfl rfl rfl).1 rfl
  simpa using h

end SdMox

/-! ## Claim C8: production number requires postal address -/

namespace SdMox

/-- C8: a create/edit-address invocation whose combined (new + current)
addresses contain a `PNUMBER` record but no `DAR` record aborts with
the ordering violation and publishes nothing; when a `DAR` record is
present the invocation proceeds past this check (it can never fail with
the ordering violation). -/
theorem pnumber_requires_postal (env : Env) (st : Settings) (uu : String)
    (ud : MOUnit) (ad : AddressDetail) (pas : List AddressDetail)
    (dr : Bool) (fd : String) :
    ((∃ d ∈ (ad :: pas), d.scope = "PNUMBER") →
      (∀ d ∈ (ad :: pas), d.scope ≠ "DAR") →
      create_address_flow env st uu ud ad pas dr fd = ([], .error .orderingViolation))
    ∧ ((∃ d ∈ (ad :: pas), d.scope = "DAR") →
      (create_address_flow env st uu ud ad pas dr fd).2 ≠ .error .orderingViolation) := by
  constructor
  · intro hpn hnd
    obtain ⟨s', k', hg⟩ := @grouped_addresses_go_noDAR env.darLookup (ad :: pas) hnd [] []
    have hP : assocHas s' "PNUMBER" = true :=
      (grouped_addresses_go_hasKey hg).2 (.inr hpn)
    have hD : assocHas s' "DAR" = false := by
      by_cases hc : assocHas s' "DAR" = true
      · rcases (grouped_addresses_go_hasKey hg).1 hc with h1 | ⟨d, hd, hsc⟩
        · simp [assocHas] at h1
        · exact absurd hsc (hnd d hd)
      · revert hc
        cases assocHas s' "DAR" <;> simp
    have hpe : payload_edit env.darLookup uu ud (ad :: pas) = .error .orderingViolation := by
      unfold payload_edit grouped_addresses
      simp only [hg, hP, hD]
      simp
    unfold create_address_flow update_ou_flow
    simp only [hpe]
  · intro hdar h
    unfold create_address_flow update_ou_flow at h
    rcases hpe : payload_edit env.darLookup uu ud (ad :: pas) with e | pe <;>
      simp only [hpe] at h
    · simp at h
      rw [h] at hpe
      exact payload_edit_dar_no_ordering hdar hpe
    · rcases check_unit_flow_err h with h1 | h1 | h1 | ⟨xs, h1⟩ <;> simp at h1

/-- C8 witness: a new `PNUMBER` address with no current addresses
aborts with the ordering violation and no published document. -/
theorem pnumber_requires_postal_witness :
    create_address_flow envEx stEx "u-uuid" unitEx pnumDetail [] false "2020-01-01" =
      ([], .error .orderingViolation) :=
  (pnumber_requires_postal envEx stEx "u-uuid" unitEx pnumDetail [] false "2020-01-01").1
    ⟨pnumDetail, by simp, rfl⟩
    (by intro d hd; simp at hd; subst hd; decide)

end SdMox

/-! ## Claim C2: validation failures and network writes -/

namespace SdMox

/-- C2 counterexample: a non-dry-run `create_unit` whose unit data
carries a `PNUMBER` address detail and no `DAR` detail publishes the
create document FIRST and only then raises the ordering violation from
`_update_ou`'s payload build — a validation failure observed after a
wire document has already been published to the registry. -/
theorem create_unit_publishes_before_ordering :
    create_unit_flow envEx stEx "u-uuid" unitEx [pnumDetail] parentEx false "2020-01-01" =
      ([WireDoc.createDoc "Unit A" "u-uuid" "AB" "SUB" "p-uuid"],
       .error .orderingViolation) ∧
    isValidationErr .orderingViolation = true ∧
    ([WireDoc.createDoc "Unit A" "u-uuid" "AB" "SUB" "p-uuid"] : List WireDoc) ≠ [] :=
  ⟨rfl, rfl, by simp⟩

/-- C2 (amended): for rename, move and create/edit-address, every
validation failure (bad unit code, structural level mismatch, ordering
violation, unknown level) aborts the operation with no wire document
published; for create, the code / unknown-level / structural failures
abort with no document published, but an ordering violation arising
from the unit's initial address details is raised only after the create
document has been published (see the counterexample). -/
theorem validation_aborts_before_publish :
    (∀ (env : Env) (st : Settings) (uu : String) (ud : MOUnit) (nn : String)
       (ads : List AddressDetail) (dr : Bool) (fd : String) (l : List WireDoc) (e : Err),
      rename_unit_flow env st uu ud nn ads dr fd = (l, .error e) →
      isValidationErr e = true → l = [])
    ∧ (∀ (env : Env) (st : Settings) (uu : String) (ud np : MOUnit) (dr : Bool)
         (fd : String) (l : List WireDoc) (e : Err),
      move_unit_flow env st uu ud np dr fd = (l, .error e) →
      isValidationErr e = true → l = [])
    ∧ (∀ (env : Env) (st : Settings) (uu : String) (ud : MOUnit) (ad : AddressDetail)
         (pas : List AddressDetail) (dr : Bool) (fd : String) (l : List WireDoc) (e : Err),
      create_address_flow env st uu ud ad pas dr fd = (l, .error e) →
      isValidationErr e = true → l = [])
    ∧ (∀ (env : Env) (st : Settings) (uu : String) (ud : MOUnit)
         (det : List AddressDetail) (par : MOUnit) (dr : Bool) (fd : String)
         (l : List WireDoc) (e : Err),
      create_unit_flow env st uu ud det par dr fd = (l, .error e) →
      isCreatePreValidationErr e = true → l = []) := by
  refine ⟨?_, ?_, ?_, ?_⟩
  · intro env st uu ud nn ads dr fd l e h hval
    unfold rename_unit_flow at h
    rcases hv : validate_unit_code env (some ud.userKey) true with e' | verrs <;>
      simp only [hv] at h
    · rw [Prod.mk.injEq] at h
      exact h.1.symm
    · split at h
      · rw [Prod.mk.injEq] at h
        exact h.1.symm
      · exact update_ou_flow_validation_log h hval
  · intro env st uu ud np dr fd l e h hval
    unfold move_unit_flow at h
    rcases hv : validate_unit_code env (some ud.userKey) true with e' | verrs <;>
      simp only [hv] at h
    · rw [Prod.mk.injEq] at h
      exact h.1.symm
    · split at h
      · rw [Prod.mk.injEq] at h
        exact h.1.symm
      · rcases hpc : payload_create st.sd_levels uu ud np with e' | pc <;>
          simp only [hpc] at h
        · rw [Prod.mk.injEq] at h
          exact h.1.symm
        · rcases hml : move_unit_low env st pc dr with ⟨l1, r1⟩
          rw [hml] at h
          rcases r1 with e' | s
          · rw [Prod.mk.injEq] at h
            rw [← h.1]
            exact (move_unit_low_err hml).1
          · rw [Prod.mk.injEq] at h
            rw [check_unit_flow_not_validation h.2] at hval
            cases hval
  · intro env st uu ud ad pas dr fd l e h hval
    unfold create_address_flow at h
    exact update_ou_flow_validation_log h hval
  · intro env st uu ud det par dr fd l e h hval
    unfold create_unit_flow at h
    rcases hpc : payload_create st.sd_levels uu ud par with e' | pc <;>
      simp only [hpc] at h
    · rw [Prod.mk.injEq] at h
      exact h.1.symm
    · rcases hcl : create_unit_low env st pc dr with ⟨l1, r1⟩
      rw [hcl] at h
      rcases r1 with e' | s
      · rw [Prod.mk.injEq] at h
        rw [← h.1]
        exact (create_unit_low_err hcl).1
      · by_cases hdet : det = []
        · rw [if_pos hdet] at h
          rw [Prod.mk.injEq] at h
          have hnv := check_unit_flow_not_validation h.2
          rw [isCreatePre_isValidation hval] at hnv
          cases hnv
        · rw [if_neg hdet] at h
          rcases hup : update_ou_flow env st uu ud det dr fd with ⟨l2, r2⟩
          rw [hup] at h
          rcases r2 with e' | s2
          · rw [Prod.mk.injEq] at h
            have he : e' = e := Except.error.inj h.2
            subst he
            rcases update_ou_flow_err hup with
              (h1 | h1 | ⟨a, h1 | h1⟩) | (h1 | h1 | ⟨v, h1⟩ | ⟨xs, h1⟩) <;>
              rw [h1] at hval <;> simp [isCreatePreValidationErr] at hval
          · rw [Prod.mk.injEq] at h
            have hnv := check_unit_flow_not_validation h.2
            rw [isCreatePre_isValidation hval] at hnv
            cases hnv

/-- C2 witness: a rename with the invalid unit code `a` aborts on code
validation with no published document. -/
theorem validation_aborts_before_publish_witness :
    rename_unit_flow envEx stEx "u-uuid" ⟨"N", "a", "x", "u"⟩ "New" [] false "2020-01-01" =
      ([], .error (.codeErrors
        ["Enhedsnummer for kort", "Enhedsnummer skal være store bogstaver"])) ∧
    ([] : List WireDoc) = [] :=
  ⟨rfl,
   validation_aborts_before_publish.1 envEx stEx "u-uuid" ⟨"N", "a", "x", "u"⟩ "New" []
     false "2020-01-01" []
     (.codeErrors ["Enhedsnummer for kort", "Enhedsnummer skal være store bogstaver"])
     rfl rfl⟩

end SdMox
